import Mathlib

/-!
Shallow embedding of the experience replay buffer
(src/models/frames/buffers/replay_buffer.py) and of the A3C synchronization
gate logic (src/machin/frame/algorithms/a3c.py), with theorems checking the
specification's claims against the code.

Modelling conventions:
* torch tensors are modelled by their shape (list of dimension sizes), the
  device string they live on and a flattened integer payload; numeric values
  are modelled by `Int` (no claim depends on real arithmetic).
* Python methods that mutate `self` and/or their argument and may raise are
  modelled as pure functions returning the result (inside `Except`) together
  with the post-state of every mutated object.
* `random.randint` / `random.sample` draws are modelled by an explicit `rng`
  argument choosing the drawn indices.
-/

namespace Machin

/-- Model of a torch tensor: its shape, device, and flattened numeric data. -/
structure Tensor where
  shape : List Nat
  device : String
  data : List Int
deriving Repr, DecidableEq

/-- Move a tensor to a device (`torch.Tensor.to`). -/
def Tensor.toDev (t : Tensor) (device : String) : Tensor :=
  { t with device := device }

/-- Number of elements of a tensor. -/
def Tensor.numel (t : Tensor) : Nat := t.shape.prod

/-- The reward field of a transition: a plain float scalar or a tensor
(`Union[float, torch.Tensor]` in the source). -/
inductive RewardVal where
  | scalar : Int → RewardVal
  | tensor : Tensor → RewardVal
deriving Repr, DecidableEq

/-- Move a reward to a device: only tensor rewards are moved
(`if torch.is_tensor(self.reward): self.reward = self.reward.to(device)`). -/
def RewardVal.toDev : RewardVal → String → RewardVal
  | .scalar r, _ => .scalar r
  | .tensor t, device => .tensor (t.toDev device)

/-- Model of the `Transition` class: the three main dictionaries of tensors,
the reward, the terminal flag, and the extra keyword fields (whose values are
modelled as plain numbers, per the class docstring they must not be tensors). -/
structure Transition where
  state : List (String × Tensor)
  action : List (String × Tensor)
  next_state : List (String × Tensor)
  reward : RewardVal
  terminal : Bool
  kwargs : List (String × Int)
deriving Repr, DecidableEq

instance : Inhabited Transition :=
  ⟨⟨[], [], [], .scalar 0, false, []⟩⟩

/-- Model of `Transition.keys`: the five fixed keys followed by the kwargs
keys, in order. -/
def Transition.keys (t : Transition) : List String :=
  ["state", "action", "next_state", "reward", "terminal"] ++ t.kwargs.map Prod.fst

/-- Model of `Transition.__len__` (`self._length`): 5 plus the number of
keyword fields. -/
def Transition.len (t : Transition) : Nat := 5 + t.kwargs.length

/-- Model of `Transition.has_keys`: every requested key occurs in `keys`. -/
def Transition.has_keys (t : Transition) (ks : List String) : Bool :=
  ks.all (fun k => t.keys.contains k)

/-- Model of `Transition.to`: migrate every tensor of the three main
dictionaries, and the reward when it is a tensor, to the device. -/
def Transition.toDev (t : Transition) (device : String) : Transition :=
  { t with
    state := t.state.map (fun p => (p.1, p.2.toDev device)),
    action := t.action.map (fun p => (p.1, p.2.toDev device)),
    next_state := t.next_state.map (fun p => (p.1, p.2.toDev device)),
    reward := t.reward.toDev device }

/-- Leading dimension of a shape: `s[0]` in Python, raising `IndexError` on a
zero-dimensional shape. -/
def shapeHead : List Nat → Except String Nat
  | [] => .error "IndexError: tuple index out of range"
  | n :: _ => .ok n

/-- Evaluate `[s[0] == batch_size for s in tensor_shapes]` and take the
conjunction: every element is evaluated, so an empty shape raises before the
comparison result is known. -/
def checkHeads (shapes : List (List Nat)) (bs : Nat) : Except String Bool :=
  match shapes with
  | [] => .ok true
  | s :: rest => do
      let h ← shapeHead s
      let r ← checkHeads rest bs
      .ok (h == bs && r)

/-- Shapes of all tensors under state, action and next_state, in that order
(the `tensor_shapes` local of `_check_input`). -/
def Transition.mainShapes (t : Transition) : List (List Nat) :=
  t.state.map (fun p => p.2.shape) ++ t.action.map (fun p => p.2.shape)
    ++ t.next_state.map (fun p => p.2.shape)

/-- Model of `Transition._check_input`: derive the batch size from the reward
(1 for a float scalar, the leading dimension for a 2-dimensional tensor,
otherwise raise), then require every tensor of state, action and next_state to
have that leading dimension. -/
def Transition.check_input (t : Transition) : Except String Unit := do
  let tensor_shapes := t.mainShapes
  let batch_size ←
    match t.reward with
    | .scalar _ => pure 1
    | .tensor r =>
        if r.shape.length == 2 then
          pure r.shape.headI
        else
          Except.error
            "Reward type must be a float value or a tensor of shape [batch_size, *]"
  let ok ← checkHeads tensor_shapes batch_size
  if ok then
    pure ()
  else
    Except.error "Batch size of tensors in the transition object does not match"

/-- Model of the `Transition` constructor: build the record and run
`_check_input`, which raises (returns an error) on violated shape
invariants. -/
def Transition.make (state action next_state : List (String × Tensor))
    (reward : RewardVal) (terminal : Bool) (kwargs : List (String × Int)) :
    Except String Transition :=
  let t : Transition := ⟨state, action, next_state, reward, terminal, kwargs⟩
  (t.check_input).map (fun _ => t)

/-- The default `required_keys` argument of `ReplayBuffer.append`. -/
def defaultRequiredKeys : List String :=
  ["state", "action", "next_state", "reward", "terminal"]

/-- Model of the `ReplayBuffer` class state: fixed capacity, storage device,
the list of stored transitions, the ring write cursor, and the main
(concatenable) attribute names. -/
structure ReplayBuffer where
  buffer_size : Nat
  buffer_device : String
  buffer : List Transition
  index : Nat
  main_attrs : List String
deriving Repr, DecidableEq

/-- Model of `ReplayBuffer.__init__` with the default main attributes. -/
def ReplayBuffer.new (buffer_size : Nat) (buffer_device : String) : ReplayBuffer :=
  ⟨buffer_size, buffer_device, [], 0, ["state", "action", "next_state"]⟩

/-- Model of `ReplayBuffer.size`: the current buffer length. -/
def ReplayBuffer.size (rb : ReplayBuffer) : Nat := rb.buffer.length

/-- Model of `ReplayBuffer.clear`: `self.buffer.clear()` — the write cursor
`index` is left untouched by the source. -/
def ReplayBuffer.clear (rb : ReplayBuffer) : ReplayBuffer :=
  { rb with buffer := [] }

/-- Model of `ReplayBuffer.append`. Returns the written position (or the
raised error), the post-state of the buffer, and the post-state of the
argument transition (which the source mutates in place via `transition.to`).
Steps, in source order: required-key check; device migration of the argument;
length (field-count) check against the first stored record; trim when over
capacity; ring overwrite at `index` when full, plain append otherwise. -/
def ReplayBuffer.append (rb : ReplayBuffer) (transition : Transition)
    (required_keys : List String) :
    Except String Nat × ReplayBuffer × Transition :=
  if ¬ transition.has_keys required_keys then
    (.error "Transition object missing keys", rb, transition)
  else
    let transition := transition.toDev rb.buffer_device
    if rb.size ≠ 0 ∧ rb.buffer.headI.len ≠ transition.len then
      (.error "Transition object length is not equal to objects stored by buffer!",
        rb, transition)
    else
      let rb :=
        if rb.size > rb.buffer_size then
          { rb with buffer := rb.buffer.drop (rb.size - rb.buffer_size) }
        else rb
      if rb.size = rb.buffer_size then
        if rb.index < rb.buffer.length then
          (.ok rb.index,
            { rb with
              buffer := rb.buffer.set rb.index transition,
              index := (rb.index + 1) % rb.buffer_size },
            transition)
        else
          (.error "IndexError: list assignment index out of range", rb, transition)
      else
        (.ok rb.buffer.length, { rb with buffer := rb.buffer ++ [transition] },
          transition)

/-- Run a sequence of `append` calls with the default required keys, from left
to right, collecting the returned positions; the first raised error aborts the
sequence (as an uncaught Python exception would). -/
def ReplayBuffer.appendAll (rb : ReplayBuffer) (ts : List Transition) :
    Except String (ReplayBuffer × List Nat) :=
  match ts with
  | [] => .ok (rb, [])
  | t :: rest =>
      match rb.append t defaultRequiredKeys with
      | (.error e, _, _) => .error e
      | (.ok pos, rb', _) =>
          (rb'.appendAll rest).map (fun r => (r.1, pos :: r.2))

/-- Python `l[0]`: the head of a list, raising `IndexError` when empty. -/
def listHead {α : Type} : List α → Except String α
  | [] => .error "IndexError: list index out of range"
  | x :: _ => .ok x

/-- Python dictionary lookup `d[k]`, raising `KeyError` when absent. -/
def dictGet {α : Type} (d : List (String × α)) (k : String) : Except String α :=
  match d.find? (fun p => p.1 == k) with
  | some p => .ok p.2
  | none => .error "KeyError"

/-- Model of `getattr(item, k)` for one of the main attributes: only the three
tensor-dictionary attributes answer with a dictionary; anything else fails
(in Python, by `AttributeError` or by `.keys()` on a non-dictionary). -/
def Transition.mainDict (t : Transition) : String → Except String (List (String × Tensor))
  | "state" => .ok t.state
  | "action" => .ok t.action
  | "next_state" => .ok t.next_state
  | _ => .error "AttributeError: attribute is not a tensor dictionary"

/-- Model of `getattr(item, k)` for a custom (keyword) field. -/
def Transition.getCustom (t : Transition) (k : String) : Except String Int :=
  dictGet t.kwargs k

/-- Model of `torch.cat(ts, dim=0)`: requires a non-empty list of tensors of
positive rank agreeing on all trailing dimensions; the result stacks the
leading dimensions and concatenates the flattened payloads. -/
def torch_cat (ts : List Tensor) : Except String Tensor :=
  match ts with
  | [] => .error "RuntimeError: cat expects a non-empty list of tensors"
  | t0 :: rest =>
      match t0.shape with
      | [] => .error "RuntimeError: zero-dimensional tensor cannot be concatenated"
      | _ :: tail =>
          if rest.all (fun u => decide (u.shape ≠ []) && u.shape.tail == tail) then
            .ok ⟨(ts.map (fun u => u.shape.headI)).sum :: tail, t0.device,
              (ts.map Tensor.data).flatten⟩
          else .error "RuntimeError: sizes of tensors must match"

/-- Model of `t.view(n, -1)`: the inferred dimension is `numel / n`, defined
exactly when `n` is positive and divides the (positive) element count. -/
def Tensor.view2 (t : Tensor) (n : Nat) : Except String Tensor :=
  if n ≠ 0 ∧ t.numel % n = 0 ∧ t.numel ≠ 0 then
    .ok { t with shape := [n, t.numel / n] }
  else .error "RuntimeError: invalid shape for view"

/-- Model of `torch.tensor(vals, device=device)` on a flat list of numbers. -/
def torch_tensor1 (vals : List Int) (device : String) : Tensor :=
  ⟨[vals.length], device, vals⟩

/-- Model of `float(x)` on a reward: floats convert directly, tensors only
when they hold exactly one element. -/
def RewardVal.toFloat : RewardVal → Except String Int
  | .scalar r => .ok r
  | .tensor t =>
      if t.numel = 1 then .ok t.data.headI
      else .error "ValueError: only one element tensors can be converted"

/-- Model of `item[k].to(device)` on a reward used in the tensor-reward branch
of concatenation: a scalar reward there raises (floats have no `to`). -/
def RewardVal.asTensor : RewardVal → Except String Tensor
  | .scalar _ => .error "AttributeError: float object has no attribute to"
  | .tensor t => .ok t

/-- Draw `k` distinct elements without replacement (model of
`random.sample`): at each step the `rng` stream picks one remaining element. -/
def drawDistinct : Nat → Nat → List Transition → (Nat → Nat) → List Transition
  | 0, _, _, _ => []
  | k + 1, i, l, rng =>
      if l.isEmpty then []
      else
        let j := rng i % l.length
        l.getD j default :: drawDistinct k (i + 1) (l.eraseIdx j) rng

/-- Model of `ReplayBuffer.sample_method_random_unique`: sample
`min(batch_size, len(buffer))` distinct records. -/
def sample_method_random_unique (rng : Nat → Nat) (buffer : List Transition)
    (batch_size : Nat) : Except String (List Transition × Nat) :=
  if buffer.length < batch_size then
    .ok (drawDistinct buffer.length 0 buffer rng, buffer.length)
  else
    .ok (drawDistinct batch_size 0 buffer rng, batch_size)

/-- Model of `ReplayBuffer.sample_method_random`: `batch_size` independent
draws via `random.randint(0, len(buffer) - 1)`, which raises on an empty
buffer as soon as one draw is requested. -/
def sample_method_random (rng : Nat → Nat) (buffer : List Transition)
    (batch_size : Nat) : Except String (List Transition × Nat) :=
  if batch_size ≠ 0 ∧ buffer.length = 0 then
    .error "ValueError: empty range for randrange"
  else
    .ok ((List.range batch_size).map (fun i => buffer.getD (rng i % buffer.length) default),
      batch_size)

/-- Model of `ReplayBuffer.sample_method_all`: the whole buffer, in order. -/
def sample_method_all (buffer : List Transition) (_batch_size : Nat) :
    Except String (List Transition × Nat) :=
  .ok (buffer, buffer.length)

/-- One entry of the tuple returned by `concatenate_batch`: a dictionary of
concatenated tensors, a dictionary of tensor lists, a lone tensor, or a plain
list of values. -/
inductive CatVal where
  | tdict : List (String × Tensor) → CatVal
  | ldict : List (String × List Tensor) → CatVal
  | tens : Tensor → CatVal
  | vals : List Int → CatVal
deriving Repr, DecidableEq

/-- One element of the per-sub-key column of a main attribute:
`item[k][sub_k].to(device)`. -/
def colFun (kmain sub_k dev : String) (item : Transition) : Except String Tensor := do
  let d ← item.mainDict kmain
  let v ← dictGet d sub_k
  pure (v.toDev dev)

/-- One concatenated entry of a main attribute's dictionary:
`torch.cat([item[k][sub_k].to(device) for item in batch], dim=0)`. -/
def catCol (kmain dev : String) (batch : List Transition) (sub_k : String) :
    Except String (String × Tensor) := do
  let col ← batch.mapM (colFun kmain sub_k dev)
  (torch_cat col).map (fun c => (sub_k, c))

/-- One uncatenated entry of a main attribute's dictionary:
`[item[k][sub_k].to(device) for item in batch]`. -/
def listCol (kmain dev : String) (batch : List Transition) (sub_k : String) :
    Except String (String × List Tensor) := do
  let col ← batch.mapM (colFun kmain sub_k dev)
  pure (sub_k, col)

/-- One iteration of the `for k in sample_keys` loop of
`ReplayBuffer.concatenate_batch`, threading the `result` and `used_keys`
accumulators. -/
def concatOne (main_attrs : List String) (batch : List Transition)
    (batch_size : Nat) (concatenate : Bool) (device : String)
    (additional_concat_keys : List String) (acc : List CatVal × List String)
    (k : String) : Except String (List CatVal × List String) :=
  let result := acc.1
  let used_keys := acc.2
  if main_attrs.contains k then do
    let b0 ← listHead batch
    let d0 ← b0.mainDict k
    if concatenate then do
      let tmp ← (d0.map Prod.fst).mapM (catCol k device batch)
      pure (result ++ [CatVal.tdict tmp], used_keys ++ [k])
    else do
      let tmp ← (d0.map Prod.fst).mapM (listCol k device batch)
      pure (result ++ [CatVal.ldict tmp], used_keys ++ [k])
  else if k == "reward" then do
    let b0 ← listHead batch
    let tensorBranch : Bool :=
      match b0.reward with
      | .tensor t0 => decide (t0.shape.length > 0)
      | .scalar _ => false
    if tensorBranch then do
      let col ← batch.mapM (fun item =>
        (item.reward.asTensor).map (fun t => t.toDev device))
      let c ← torch_cat col
      let v ← c.view2 batch_size
      pure (result ++ [CatVal.tens v], used_keys ++ [k])
    else do
      let vals ← batch.mapM (fun item => item.reward.toFloat)
      let v ← (torch_tensor1 vals device).view2 batch_size
      pure (result ++ [CatVal.tens v], used_keys ++ [k])
  else if k == "terminal" then do
    let vals := batch.map (fun item => if item.terminal then (1 : Int) else 0)
    let v ← (torch_tensor1 vals device).view2 batch_size
    pure (result ++ [CatVal.tens v], used_keys ++ [k])
  else if k == "*" then do
    let b0 ← listHead batch
    let remain := b0.keys.filter (fun rk =>
      !(["state", "action", "next_state", "reward", "terminal"].contains rk)
        && !(used_keys.contains rk))
    let entries ← remain.mapM (fun rk =>
      if additional_concat_keys.contains rk then do
        let vals ← batch.mapM (fun item => item.getCustom rk)
        let v ← (torch_tensor1 vals device).view2 batch_size
        pure (CatVal.tens v)
      else do
        let vals ← batch.mapM (fun item => item.getCustom rk)
        pure (CatVal.vals vals))
    pure (result ++ entries, used_keys)
  else
    if additional_concat_keys.contains k then do
      let vals ← batch.mapM (fun item => item.getCustom k)
      let v ← (torch_tensor1 vals device).view2 batch_size
      pure (result ++ [CatVal.tens v], used_keys ++ [k])
    else do
      let vals ← batch.mapM (fun item => item.getCustom k)
      pure (result ++ [CatVal.vals vals], used_keys ++ [k])

/-- Model of `ReplayBuffer.concatenate_batch`: fold the per-key step over
`sample_keys` and return the accumulated tuple of results. -/
def ReplayBuffer.concatenate_batch (rb : ReplayBuffer) (batch : List Transition)
    (batch_size : Nat) (concatenate : Bool) (device : String)
    (sample_keys : List String) (additional_concat_keys : List String) :
    Except String (List CatVal) := do
  let r ← sample_keys.foldlM
    (concatOne rb.main_attrs batch batch_size concatenate device additional_concat_keys)
    ([], [])
  pure r.1

/-- Model of `ReplayBuffer.sample_batch`: resolve the named sampling method
(raising on an unknown name), draw the batch, default the device and the
sample keys (the latter reads `batch[0]`, raising on an empty batch), and
concatenate. -/
def ReplayBuffer.sample_batch (rb : ReplayBuffer) (batch_size : Nat)
    (concatenate : Bool) (device : Option String) (sample_method : String)
    (sample_keys : Option (List String))
    (additional_concat_keys : Option (List String)) (rng : Nat → Nat) :
    Except String (Nat × List CatVal) := do
  let method ←
    if sample_method == "random_unique" then pure (sample_method_random_unique rng)
    else if sample_method == "random" then pure (sample_method_random rng)
    else if sample_method == "all" then pure sample_method_all
    else Except.error "Cannot find specified sample method"
  let drawn ← method rb.buffer batch_size
  let batch := drawn.1
  let batch_size := drawn.2
  let device := device.getD rb.buffer_device
  let sample_keys ←
    match sample_keys with
    | none => (listHead batch).map Transition.keys
    | some ks => pure ks
  let additional_concat_keys := additional_concat_keys.getD []
  let res ← rb.concatenate_batch batch batch_size concatenate device sample_keys
    additional_concat_keys
  pure (batch_size, res)

/-- Modelled from the spec: the `Switch` helper class
(`machin.utils.helper_classes`, not under src/) is the SyncGate — "a single
tri-state-free boolean flag, default sync enabled", with idempotent `on()` and
`off()` and a `get()` read. -/
structure Switch where
  flag : Bool
deriving Repr, DecidableEq

/-- Idempotent set of the latch. -/
def Switch.on (_s : Switch) : Switch := ⟨true⟩

/-- Idempotent clear of the latch. -/
def Switch.off (_s : Switch) : Switch := ⟨false⟩

/-- Read the latch. -/
def Switch.get (s : Switch) : Bool := s.flag

/-- Observable per-worker state of an `A3C` instance for the synchronization
claims: the `_disable_sync` gate and counters of the pull/push calls issued to
the actor and critic gradient servers. -/
structure A3CState where
  disable_sync : Switch
  actor_pulls : Nat
  critic_pulls : Nat
  actor_pushes : Nat
  critic_pushes : Nat
deriving Repr, DecidableEq

/-- Fresh worker state: gate open (sync enabled), no traffic yet
(`self._disable_sync = Switch()` in `A3C.__init__`). -/
def A3CState.init : A3CState := ⟨⟨false⟩, 0, 0, 0, 0⟩

/-- Model of `A3C.act`: pull the actor parameters when `pull` is true and the
gate is open, then run inference (which does not touch this state). -/
def A3C.act (s : A3CState) (pull : Bool) : A3CState :=
  if pull && !s.disable_sync.get then
    { s with actor_pulls := s.actor_pulls + 1 }
  else s

/-- Model of `A3C.eval_act`: same gating as `act`, pulling the actor. -/
def A3C.eval_act (s : A3CState) (pull : Bool) : A3CState :=
  if pull && !s.disable_sync.get then
    { s with actor_pulls := s.actor_pulls + 1 }
  else s

/-- Model of `A3C.criticize`: pull the critic parameters when `pull` is true
and the gate is open. -/
def A3C.criticize (s : A3CState) (pull : Bool) : A3CState :=
  if pull && !s.disable_sync.get then
    { s with critic_pulls := s.critic_pulls + 1 }
  else s

/-- Model of `A3C.manual_sync`: unconditional pulls of actor and critic. -/
def A3C.manual_sync (s : A3CState) : A3CState :=
  { s with actor_pulls := s.actor_pulls + 1, critic_pulls := s.critic_pulls + 1 }

/-- One inference call the update body may issue against this worker. -/
inductive InnerCall where
  | act : Bool → InnerCall
  | evalAct : Bool → InnerCall
  | criticize : Bool → InnerCall
deriving Repr, DecidableEq

/-- Dispatch one inference call. -/
def runCall (s : A3CState) : InnerCall → A3CState
  | .act pull => A3C.act s pull
  | .evalAct pull => A3C.eval_act s pull
  | .criticize pull => A3C.criticize s pull

/-- Run the body's inference calls in order. -/
def runCalls : List InnerCall → A3CState → A3CState
  | [], s => s
  | c :: rest, s => runCalls rest (runCall s c)

/-- Model of `A3C.update`. Modelled from the spec: the update body is
`A2C.update` (src/ holds only its caller), specified as "the full local update
against a batch drawn from ExperienceStore, delegated to the excluded
optimizer/criterion logic"; it is abstracted as a list of inference calls it
may issue plus an optional error it raises, and it does not itself toggle the
gate. The caller's code is modelled exactly: gate on, body, gate off, push
actor, push critic — with no handler, so a body error propagates immediately,
skipping the remaining statements. Returns the post-state and the raised
error, if any. -/
def A3C.update (body : List InnerCall) (bodyError : Option String)
    (s : A3CState) : A3CState × Option String :=
  let s1 := { s with disable_sync := s.disable_sync.on }
  let s2 := runCalls body s1
  match bodyError with
  | some e => (s2, some e)
  | none =>
      let s3 := { s2 with disable_sync := s2.disable_sync.off }
      let s4 := { s3 with actor_pushes := s3.actor_pushes + 1 }
      ({ s4 with critic_pushes := s4.critic_pushes + 1 }, none)

/-- Key-to-shape projection of a tensor dictionary, used to state that two
records agree on field names and array shapes. -/
def shapeMap (d : List (String × Tensor)) : List (String × List Nat) :=
  d.map (fun p => (p.1, p.2.shape))

/-! Concrete records and stores used by counterexamples and witnesses. -/

/-- Concrete single-step record number `i`: unit batch dimension 1, all
tensors on the cpu device, payload `i`. -/
def recR (i : Int) : Transition :=
  ⟨[("s", ⟨[1, 1], "cpu", [i]⟩)], [("a", ⟨[1, 1], "cpu", [i]⟩)],
    [("s", ⟨[1, 1], "cpu", [i]⟩)], .scalar i, false, []⟩

/-- The store reached by appending records 1..5 into a fresh capacity-3
store: ring order R4, R5, R3 with the cursor at 2. -/
def rbRing : ReplayBuffer :=
  ⟨3, "cpu", [recR 4, recR 5, recR 3], 2, ["state", "action", "next_state"]⟩

/-- The store reached by appending records 1..3 into a fresh capacity-2
store: contents R3, R2 with the cursor at 1. -/
def rbTwoFull : ReplayBuffer :=
  ⟨2, "cpu", [recR 3, recR 2], 1, ["state", "action", "next_state"]⟩

/-- A record carrying one extra field named "bar" (6 fields in total). -/
def recBar : Transition := { recR 1 with kwargs := [("bar", 7)] }

/-- A record carrying one extra field named "foo" (6 fields in total). -/
def recFoo : Transition := { recR 2 with kwargs := [("foo", 8)] }

/-- A capacity-3 store holding only `recBar`. -/
def rbOneBar : ReplayBuffer :=
  ⟨3, "cpu", [recBar], 0, ["state", "action", "next_state"]⟩

/-- A capacity-3 store holding only `recR 1`. -/
def rbOneRec : ReplayBuffer :=
  ⟨3, "cpu", [recR 1], 0, ["state", "action", "next_state"]⟩

/-- A record whose tensors live on the cuda:0 device and which carries one
extra field (6 fields in total). -/
def recCuda : Transition :=
  ⟨[("s", ⟨[1, 1], "cuda:0", [9]⟩)], [("a", ⟨[1, 1], "cuda:0", [9]⟩)],
    [("s", ⟨[1, 1], "cuda:0", [9]⟩)], .tensor ⟨[1, 1], "cuda:0", [3]⟩, false,
    [("w", 2)]⟩

/-- A record whose main tensors all share leading batch dimension 2 while its
reward is a 1-dimensional tensor of matching leading dimension 2. -/
def recOneD : Transition :=
  ⟨[("s", ⟨[2, 3], "cpu", [0, 0, 0, 0, 0, 0]⟩)], [("a", ⟨[2, 1], "cpu", [0, 0]⟩)],
    [("s", ⟨[2, 3], "cpu", [0, 0, 0, 0, 0, 0]⟩)], .tensor ⟨[2], "cpu", [0, 0]⟩,
    false, []⟩

/-- A pre-batched record: every main tensor and the reward carry leading
batch dimension 2 (a legal Transition with unit size 2). -/
def recPre : Transition :=
  ⟨[("s", ⟨[2, 3], "cpu", [0, 0, 0, 0, 0, 0]⟩)], [("a", ⟨[2, 1], "cpu", [0, 0]⟩)],
    [("s", ⟨[2, 3], "cpu", [0, 0, 0, 0, 0, 0]⟩)], .tensor ⟨[2, 1], "cpu", [0, 0]⟩,
    false, []⟩

/-- A capacity-3 store holding only the pre-batched record. -/
def rbPre : ReplayBuffer :=
  ⟨3, "cpu", [recPre], 0, ["state", "action", "next_state"]⟩

/-! Helper lemmas about the embedded operations. -/

/-- Every transition carries the five fixed keys, so the default
`required_keys` check of `append` always passes. -/
theorem has_keys_default (t : Transition) :
    t.has_keys defaultRequiredKeys = true := by
  simp [Transition.has_keys, Transition.keys, defaultRequiredKeys]

/-- Device migration preserves the field count of a transition. -/
theorem len_toDev (t : Transition) (d : String) : (t.toDev d).len = t.len := rfl

/-- Device migration preserves the key list of a transition. -/
theorem keys_toDev (t : Transition) (d : String) : (t.toDev d).keys = t.keys := rfl

/-- Behaviour of one `append` on a store strictly below capacity whose schema
the record matches: the record is migrated and appended at the tail, and the
tail index is returned. -/
theorem append_not_full (rb : ReplayBuffer) (t : Transition)
    (hlen : rb.buffer = [] ∨ rb.buffer.headI.len = t.len)
    (hroom : rb.buffer.length < rb.buffer_size) :
    rb.append t defaultRequiredKeys =
      (.ok rb.buffer.length,
        { rb with buffer := rb.buffer ++ [t.toDev rb.buffer_device] },
        t.toDev rb.buffer_device) := by
  have hsz : ¬ (rb.size > rb.buffer_size) := by
    simp only [ReplayBuffer.size]; omega
  have hne : ¬ (rb.size = rb.buffer_size) := by
    simp only [ReplayBuffer.size]; omega
  have hchk : ¬ (rb.size ≠ 0 ∧ rb.buffer.headI.len ≠ (t.toDev rb.buffer_device).len) := by
    rcases hlen with h | h
    · simp [ReplayBuffer.size, h]
    · simp [len_toDev, h]
  simp [ReplayBuffer.append, has_keys_default, hchk, hsz, hne]

/-- Behaviour of one `append` whose record matches the required keys but whose
field count disagrees with the stored schema: the call raises, the store is
left untouched, and the argument record has already been migrated. -/
theorem append_len_mismatch (rb : ReplayBuffer) (t : Transition)
    (req : List String) (hne : rb.buffer ≠ []) (hk : t.has_keys req = true)
    (hlen : rb.buffer.headI.len ≠ t.len) :
    rb.append t req =
      (.error "Transition object length is not equal to objects stored by buffer!",
        rb, t.toDev rb.buffer_device) := by
  have hchk : rb.size ≠ 0 ∧ rb.buffer.headI.len ≠ (t.toDev rb.buffer_device).len :=
    ⟨by simpa [ReplayBuffer.size, List.length_eq_zero] using hne,
      by simpa [len_toDev] using hlen⟩
  simp [ReplayBuffer.append, hk, hchk]

/-- Running a sequence of appends on a store with enough free room: every
record is migrated and appended at the tail, in order, and the returned
positions are the consecutive tail indices. -/
theorem appendAll_below (rb : ReplayBuffer) (ts : List Transition) (L : Nat)
    (hroom : rb.buffer.length + ts.length ≤ rb.buffer_size)
    (hbuf : ∀ b ∈ rb.buffer, b.len = L) (hts : ∀ t ∈ ts, t.len = L) :
    rb.appendAll ts =
      .ok ({ rb with buffer := rb.buffer ++ ts.map (fun t => t.toDev rb.buffer_device) },
        List.range' rb.buffer.length ts.length) := by
  induction ts generalizing rb with
  | nil => simp [ReplayBuffer.appendAll]
  | cons t rest ih =>
      have hlen : rb.buffer = [] ∨ rb.buffer.headI.len = t.len := by
        cases hb : rb.buffer with
        | nil => exact Or.inl rfl
        | cons b bs =>
            refine Or.inr ?_
            have h1 : b.len = L := hbuf b (by rw [hb]; exact List.mem_cons_self b bs)
            have h2 : t.len = L := hts t (List.mem_cons_self t rest)
            simp [hb, h1, h2]
      have hroom' : rb.buffer.length < rb.buffer_size := by
        simp only [List.length_cons] at hroom; omega
      have happ := append_not_full rb t hlen hroom'
      have ihx := ih { rb with buffer := rb.buffer ++ [t.toDev rb.buffer_device] }
        (by simp only [List.length_append, List.length_cons,
              List.length_nil] at hroom ⊢; omega)
        (by intro b hb
            rcases List.mem_append.mp hb with h | h
            · exact hbuf b h
            · rw [List.mem_singleton.mp h, len_toDev]
              exact hts t (List.mem_cons_self t rest))
        (fun u hu => hts u (List.mem_cons_of_mem t hu))
      simp [ReplayBuffer.appendAll, happ, ihx, List.range'_succ, Except.map]

/-- Inference calls never toggle the synchronization gate. -/
theorem runCalls_disable_sync (calls : List InnerCall) (s : A3CState) :
    (runCalls calls s).disable_sync = s.disable_sync := by
  induction calls generalizing s with
  | nil => rfl
  | cons c rest ih =>
      have hc : (runCall s c).disable_sync = s.disable_sync := by
        cases c <;>
          · simp only [runCall, A3C.act, A3C.eval_act, A3C.criticize]
            split <;> rfl
      rw [runCalls, ih, hc]

/-- With the gate closed, every inference call is a no-op: no pull is issued
and the state is unchanged. -/
theorem runCalls_gated (calls : List InnerCall) (s : A3CState)
    (h : s.disable_sync.get = true) : runCalls calls s = s := by
  induction calls generalizing s with
  | nil => rfl
  | cons c rest ih =>
      have hc : runCall s c = s := by
        cases c <;> simp [runCall, A3C.act, A3C.eval_act, A3C.criticize, h]
      rw [runCalls, hc, ih s h]

/-- The head-dimension scan succeeds with `true` exactly when every shape is
non-empty and has the given leading dimension. -/
theorem checkHeads_ok_true_iff (shapes : List (List Nat)) (bs : Nat) :
    checkHeads shapes bs = .ok true ↔ ∀ s ∈ shapes, s.head? = some bs := by
  induction shapes with
  | nil => simp [checkHeads]
  | cons s rest ih =>
      cases s with
      | nil => simp [checkHeads, shapeHead, bind, Except.bind]
      | cons n tail =>
          cases hr : checkHeads rest bs with
          | error e =>
              rw [hr] at ih
              constructor
              · intro h
                exfalso
                simp [checkHeads, shapeHead, hr, bind, Except.bind] at h
              · intro h
                exfalso
                have h2 : ∀ u ∈ rest, u.head? = some bs :=
                  fun u hu => h u (List.mem_cons_of_mem _ hu)
                exact absurd (ih.mpr h2) (by simp)
          | ok b =>
              rw [hr] at ih
              have hlhs : checkHeads ((n :: tail) :: rest) bs = .ok (n == bs && b) := by
                simp [checkHeads, shapeHead, hr, bind, Except.bind]
              rw [hlhs]
              constructor
              · intro h
                have hh : (n == bs && b) = true := by simpa using h
                have h1 : n = bs := by
                  have := (Bool.and_eq_true _ _).mp hh
                  simpa using this.1
                have h2 : b = true := ((Bool.and_eq_true _ _).mp hh).2
                intro u hu
                rcases List.mem_cons.mp hu with hu1 | hu2
                · rw [hu1]; simp [h1]
                · exact (ih.mp (by rw [h2])) u hu2
              · intro h
                have hn : n = bs := by
                  simpa using h (n :: tail) (List.mem_cons_self _ _)
                have hrest : ∀ u ∈ rest, u.head? = some bs :=
                  fun u hu => h u (List.mem_cons_of_mem _ hu)
                have hb : b = true := by simpa using ih.mpr hrest
                simp [hn, hb]

/-- Dictionary lookup at a matching head entry. -/
theorem dictGet_cons_pos {p : String × Tensor} {d : List (String × Tensor)}
    {k : String} (h : (p.1 == k) = true) : dictGet (p :: d) k = .ok p.2 := by
  have h' : (fun q : String × Tensor => q.1 == k) p = true := h
  unfold dictGet
  rw [@List.find?_cons_of_pos (String × Tensor) (fun q => q.1 == k) p d h']

/-- Dictionary lookup skipping a non-matching head entry. -/
theorem dictGet_cons_neg {p : String × Tensor} {d : List (String × Tensor)}
    {k : String} (h : (p.1 == k) = false) : dictGet (p :: d) k = dictGet d k := by
  have h' : ¬ (fun q : String × Tensor => q.1 == k) p = true := by simp [h]
  unfold dictGet
  rw [@List.find?_cons_of_neg (String × Tensor) (fun q => q.1 == k) p d h']

/-- Two dictionaries agreeing on keys and shapes answer lookups with
identically shaped tensors (or fail together). -/
theorem dictGet_shape_congr {d d' : List (String × Tensor)}
    (h : shapeMap d = shapeMap d') (k : String) :
    (dictGet d k).map Tensor.shape = (dictGet d' k).map Tensor.shape := by
  induction d generalizing d' with
  | nil =>
      cases d' with
      | nil => rfl
      | cons q qs => simp [shapeMap] at h
  | cons p ps ih =>
      cases d' with
      | nil => simp [shapeMap] at h
      | cons q qs =>
          simp only [shapeMap, List.map_cons, List.cons.injEq, Prod.mk.injEq] at h
          obtain ⟨⟨hk1, hs⟩, hrest⟩ := h
          by_cases hpq : (p.1 == k) = true
          · have hq : (q.1 == k) = true := by rw [← hk1]; exact hpq
            rw [dictGet_cons_pos hpq, dictGet_cons_pos hq]
            simp [Except.map, hs]
          · have hpq' : (p.1 == k) = false := by simpa using hpq
            have hq : (q.1 == k) = false := by rw [← hk1]; exact hpq'
            rw [dictGet_cons_neg hpq', dictGet_cons_neg hq]
            exact ih hrest

/-- A key occurring in a dictionary is found, at its first entry. -/
theorem dictGet_mem_key (d : List (String × Tensor)) (k : String)
    (hk : k ∈ d.map Prod.fst) :
    ∃ q ∈ d, q.1 = k ∧ dictGet d k = .ok q.2 := by
  cases hf : d.find? (fun p => p.1 == k) with
  | none =>
      exfalso
      obtain ⟨p, hp, hpk⟩ := List.mem_map.mp hk
      exact absurd (by simpa using hpk)
        (List.find?_eq_none.mp hf p hp)
  | some q =>
      exact ⟨q, List.mem_of_find?_eq_some hf,
        by simpa using List.find?_some hf, by simp [dictGet, hf]⟩

/-- Evaluation of one column element when both lookups succeed. -/
theorem colFun_eval {kmain sub_k dev : String} {item : Transition}
    {d : List (String × Tensor)} {v : Tensor}
    (h1 : item.mainDict kmain = .ok d) (h2 : dictGet d sub_k = .ok v) :
    colFun kmain sub_k dev item = .ok (v.toDev dev) := by
  unfold colFun
  rw [h1]
  simp [bind, Except.bind, h2, pure, Except.pure]

/-- Collecting one sub-field column across a batch whose dictionaries all
share the reference dictionary's keys and shapes: every lookup succeeds and
the column's shapes are all the reference shape. -/
theorem col_ok (kmain : String) (g : Transition → List (String × Tensor))
    (hg : ∀ tr : Transition, tr.mainDict kmain = .ok (g tr)) (dev sub_k : String)
    (D : List (String × Tensor)) (t0 : Tensor) (hD : dictGet D sub_k = .ok t0)
    (batch : List Transition)
    (hsm : ∀ tr ∈ batch, shapeMap (g tr) = shapeMap D) :
    ∃ cols, batch.mapM (colFun kmain sub_k dev) = .ok cols ∧
      cols.map Tensor.shape = List.replicate batch.length t0.shape := by
  induction batch with
  | nil => exact ⟨[], rfl, by simp⟩
  | cons tr rest ih =>
      obtain ⟨cols, hcols, hshapes⟩ := ih (fun u hu => hsm u (List.mem_cons_of_mem _ hu))
      have h2 := dictGet_shape_congr (hsm tr (List.mem_cons_self _ _)) sub_k
      rw [hD] at h2
      cases hv : dictGet (g tr) sub_k with
      | error e => rw [hv] at h2; simp [Except.map] at h2
      | ok v =>
          rw [hv] at h2
          simp only [Except.map] at h2
          have hvs : v.shape = t0.shape := by simpa using h2
          refine ⟨v.toDev dev :: cols, ?_, ?_⟩
          · rw [List.mapM_cons, colFun_eval (hg tr) hv, hcols]
            simp [bind, Except.bind, pure, Except.pure]
          · simp [hshapes, Tensor.toDev, hvs, List.replicate_succ]

/-- Concatenating a non-empty column of identically shaped tensors: the
result's leading dimension is the common leading dimension times the column
length, over the common trailing shape. -/
theorem torch_cat_replicate (cols : List Tensor) (h0 : Nat) (tail : List Nat)
    (hne : cols ≠ [])
    (hsh : cols.map Tensor.shape = List.replicate cols.length (h0 :: tail)) :
    ∃ c, torch_cat cols = .ok c ∧ c.shape = (cols.length * h0) :: tail := by
  have hmem : ∀ u ∈ cols, u.shape = h0 :: tail := by
    intro u hu
    have : u.shape ∈ cols.map Tensor.shape := List.mem_map_of_mem _ hu
    rw [hsh] at this
    exact List.eq_of_mem_replicate this
  obtain ⟨c0, rest, rfl⟩ := List.exists_cons_of_ne_nil hne
  have hc0 : c0.shape = h0 :: tail := hmem c0 (List.mem_cons_self _ _)
  have hall : (rest.all fun u => decide (u.shape ≠ []) && u.shape.tail == tail) = true := by
    rw [List.all_eq_true]
    intro u hu
    have := hmem u (List.mem_cons_of_mem _ hu)
    simp [this]
  have hsum : ((c0 :: rest).map (fun u => u.shape.headI)).sum =
      (c0 :: rest).length * h0 := by
    have hh : (c0 :: rest).map (fun u => u.shape.headI) =
        List.replicate ((c0 :: rest).map (fun u => u.shape.headI)).length h0 := by
      apply List.eq_replicate_of_mem
      intro b hb
      obtain ⟨u, hu, hub⟩ := List.mem_map.mp hb
      rw [← hub, hmem u hu]
      rfl
    rw [hh, List.sum_replicate, smul_eq_mul, List.length_map]
  refine ⟨⟨((c0 :: rest).map (fun u => u.shape.headI)).sum :: tail, c0.device,
    ((c0 :: rest).map Tensor.data).flatten⟩, ?_, ?_⟩
  · simp [torch_cat, hc0]
    intro x hx
    have hxs := hmem x (List.mem_cons_of_mem _ hx)
    simp [hxs]
  · have h := hsum
    simp only [List.map_cons, List.sum_cons, List.length_cons] at h
    simp [h]

/-- Evaluating the per-key loop body on a list of keys that all occur in the
reference dictionary with unit leading dimension: the result is a dictionary
of concatenated tensors over the same keys, each with the batch length as
leading dimension. -/
theorem tmp_ok (kmain : String) (g : Transition → List (String × Tensor))
    (hg : ∀ tr : Transition, tr.mainDict kmain = .ok (g tr)) (dev : String)
    (hd : Transition) (rest : List Transition)
    (hsm : ∀ tr ∈ hd :: rest, shapeMap (g tr) = shapeMap (g hd))
    (ks : List String)
    (hks : ∀ k ∈ ks, ∃ t0, dictGet (g hd) k = .ok t0 ∧ t0.shape.head? = some 1) :
    ∃ tmp, ks.mapM (catCol kmain dev (hd :: rest)) = .ok tmp ∧
      tmp.map Prod.fst = ks ∧
      ∀ p ∈ tmp, ∃ tail, p.2.shape = (hd :: rest).length :: tail := by
  induction ks with
  | nil => exact ⟨[], rfl, by simp, by simp⟩
  | cons k krest ih =>
      obtain ⟨tmp, htmp, hfst, hsh⟩ := ih (fun u hu => hks u (List.mem_cons_of_mem _ hu))
      obtain ⟨t0, hD, hh⟩ := hks k (List.mem_cons_self _ _)
      obtain ⟨tail0, ht0⟩ : ∃ tl, t0.shape = 1 :: tl := by
        cases hts : t0.shape with
        | nil => rw [hts] at hh; simp at hh
        | cons a tl =>
            rw [hts] at hh
            have ha : a = 1 := by simpa using hh
            exact ⟨tl, by rw [ha]⟩
      obtain ⟨cols, hcols, hcsh⟩ := col_ok kmain g hg dev k (g hd) t0 hD (hd :: rest) hsm
      have hclen : cols.length = (hd :: rest).length := by
        have := congrArg List.length hcsh
        simpa using this
      have hcolne : cols ≠ [] := by
        intro hcnil
        rw [hcnil] at hclen
        simp at hclen
      obtain ⟨c, hc, hcshape⟩ := torch_cat_replicate cols 1 tail0 hcolne
        (by rw [hcsh, ht0, hclen])
      have hcat : catCol kmain dev (hd :: rest) k = .ok (k, c) := by
        unfold catCol
        rw [hcols]
        simp only [bind, Except.bind]
        rw [hc]
        simp [Except.map]
      refine ⟨(k, c) :: tmp, ?_, ?_, ?_⟩
      · rw [List.mapM_cons, hcat, htmp]
        simp [bind, Except.bind, pure, Except.pure]
      · simp [hfst]
      · intro p hp
        rcases List.mem_cons.mp hp with hp1 | hp2
        · refine ⟨tail0, ?_⟩
          rw [hp1]
          rw [hcshape, hclen]
          simp
        · exact hsh p hp2

/-- A batch of scalar rewards converts elementwise by `float(...)`. -/
theorem scalar_rewards_mapM (batch : List Transition)
    (h : ∀ tr ∈ batch, ∃ r, tr.reward = .scalar r) :
    ∃ vals, batch.mapM (fun item => item.reward.toFloat) = .ok vals ∧
      vals.length = batch.length := by
  induction batch with
  | nil => exact ⟨[], rfl, by simp⟩
  | cons tr rest ih =>
      obtain ⟨vals, hvals, hlen⟩ := ih (fun u hu => h u (List.mem_cons_of_mem _ hu))
      obtain ⟨r, hr⟩ := h tr (List.mem_cons_self _ _)
      refine ⟨r :: vals, ?_, by simp [hlen]⟩
      have hf : tr.reward.toFloat = Except.ok r := by
        rw [hr]
        rfl
      rw [List.mapM_cons, hf, hvals]
      simp [bind, Except.bind, pure, Except.pure]

/-- Reshaping a freshly built flat tensor of n values to (n, -1) gives shape
[n, 1]. -/
theorem view2_tensor1 (vals : List Int) (dev : String) (hne : vals ≠ []) :
    (torch_tensor1 vals dev).view2 vals.length = .ok ⟨[vals.length, 1], dev, vals⟩ := by
  have hl : vals.length ≠ 0 := by
    simpa [List.length_eq_zero] using hne
  have hnum : (torch_tensor1 vals dev).numel = vals.length := by
    simp [torch_tensor1, Tensor.numel]
  unfold Tensor.view2
  rw [if_pos ⟨hl, by rw [hnum]; exact Nat.mod_self _, by rw [hnum]; exact hl⟩]
  simp [torch_tensor1, Tensor.numel, Nat.div_self (Nat.pos_of_ne_zero hl)]

/-- One loop iteration of `concatenate_batch` on a main attribute, over a
unit-batch-dimension batch with uniform field names and shapes: appends one
dictionary of concatenated tensors whose leading dimensions all equal the
batch length. -/
theorem concatOne_main (kmain : String) (g : Transition → List (String × Tensor))
    (hg : ∀ tr : Transition, tr.mainDict kmain = .ok (g tr))
    (hcont : (["state", "action", "next_state"] : List String).contains kmain = true)
    (hd : Transition) (rest : List Transition) (n : Nat) (dev : String)
    (ack : List String) (res : List CatVal) (used : List String)
    (hsm : ∀ tr ∈ hd :: rest, shapeMap (g tr) = shapeMap (g hd))
    (hunit : ∀ p ∈ g hd, p.2.shape.head? = some 1) :
    ∃ sd, concatOne ["state", "action", "next_state"] (hd :: rest) n true dev ack
        (res, used) kmain = .ok (res ++ [CatVal.tdict sd], used ++ [kmain]) ∧
      sd.map Prod.fst = (g hd).map Prod.fst ∧
      ∀ p ∈ sd, ∃ tail, p.2.shape = (hd :: rest).length :: tail := by
  have hks : ∀ k ∈ (g hd).map Prod.fst,
      ∃ t0, dictGet (g hd) k = .ok t0 ∧ t0.shape.head? = some 1 := by
    intro k hk
    obtain ⟨q, hq, hqk, hget⟩ := dictGet_mem_key (g hd) k hk
    exact ⟨q.2, hget, hunit q hq⟩
  obtain ⟨tmp, htmp, hfst, hsh⟩ :=
    tmp_ok kmain g hg dev hd rest hsm ((g hd).map Prod.fst) hks
  refine ⟨tmp, ?_, hfst, hsh⟩
  unfold concatOne
  simp only [hcont, if_true, listHead, bind, Except.bind]
  rw [hg hd]
  simp only [if_true]
  rw [htmp]
  simp [pure, Except.pure]

/-- One loop iteration of `concatenate_batch` on the reward key, over a batch
of scalar rewards: the scalars are promoted to a flat tensor reshaped to
leading dimension `actual_count` with one trailing column. -/
theorem concatOne_reward_scalar (hd : Transition) (rest : List Transition)
    (dev : String) (ack : List String) (res : List CatVal) (used : List String)
    (hrew : ∀ tr ∈ hd :: rest, ∃ r, tr.reward = .scalar r) :
    ∃ rt, concatOne ["state", "action", "next_state"] (hd :: rest)
        (hd :: rest).length true dev ack (res, used) "reward" =
      .ok (res ++ [CatVal.tens rt], used ++ ["reward"]) ∧
      rt.shape = [(hd :: rest).length, 1] := by
  obtain ⟨vals, hvals, hlen⟩ := scalar_rewards_mapM (hd :: rest) hrew
  have hvne : vals ≠ [] := by
    intro h
    rw [h] at hlen
    simp at hlen
  have hview := view2_tensor1 vals dev hvne
  obtain ⟨r0, hr0⟩ := hrew hd (List.mem_cons_self _ _)
  refine ⟨⟨[vals.length, 1], dev, vals⟩, ?_, by rw [hlen]⟩
  unfold concatOne
  simp only [listHead, bind, Except.bind]
  rw [hr0]
  simp only [decide_False, Bool.false_eq_true, if_false]
  rw [hvals]
  simp only [bind, Except.bind]
  rw [← hlen, hview]
  simp [pure, Except.pure]

/-- One loop iteration of `concatenate_batch` on the terminal key: the flags
map to a 0/1 tensor of shape `[actual_count, 1]`. -/
theorem concatOne_terminal (hd : Transition) (rest : List Transition)
    (dev : String) (ack : List String) (res : List CatVal) (used : List String) :
    concatOne ["state", "action", "next_state"] (hd :: rest)
        (hd :: rest).length true dev ack (res, used) "terminal" =
      .ok (res ++ [CatVal.tens ⟨[(hd :: rest).length, 1], dev,
          (hd :: rest).map (fun item => if item.terminal then 1 else 0)⟩],
        used ++ ["terminal"]) := by
  have hlen : ((hd :: rest).map
      (fun item : Transition => if item.terminal then (1 : Int) else 0)).length =
      (hd :: rest).length := List.length_map _ _
  have hvne : (hd :: rest).map
      (fun item : Transition => if item.terminal then (1 : Int) else 0) ≠ [] := by
    simp
  have hview := view2_tensor1
    ((hd :: rest).map (fun item : Transition => if item.terminal then 1 else 0))
    dev hvne
  unfold concatOne
  simp only [bind, Except.bind]
  rw [← hlen, hview]
  simp [pure, Except.pure, hlen]

/-- The final guard of `_check_input` succeeds exactly when the head scan
answers `true`. -/
theorem guard_ok_iff (shapes : List (List Nat)) (bs : Nat) (msg : String) :
    ((checkHeads shapes bs) >>= fun ok =>
        if ok then (pure () : Except String Unit) else Except.error msg) = .ok ()
      ↔ checkHeads shapes bs = .ok true := by
  cases h : checkHeads shapes bs with
  | error e => simp [bind, Except.bind]
  | ok b => cases b <;> simp [bind, Except.bind, pure, Except.pure]

/-! Claim theorems. -/

/-- C1 (counterexample): appending R1..R5 into a fresh capacity-3 store
leaves the buffer, in index order, holding R4, R5, R3 — not R3, R4, R5 as the
claim states. -/
theorem C1_counterexample :
    ((ReplayBuffer.new 3 "cpu").appendAll
        [recR 1, recR 2, recR 3, recR 4, recR 5]).map (fun r => r.1.buffer) =
      .ok [recR 4, recR 5, recR 3] ∧
    [recR 4, recR 5, recR 3] ≠ [recR 3, recR 4, recR 5] :=
  ⟨rfl, by decide⟩

/-- C1 (amended): appending R1..R5 in order into a fresh capacity-3 store
returns positions 0, 1, 2, 0, 1, and leaves `size() = 3` with the buffer, in
index order, holding R4, R5, R3 — the most recent three records in rotated
ring order, the write cursor ending at 2. -/
theorem C1_ring_eviction :
    (ReplayBuffer.new 3 "cpu").appendAll [recR 1, recR 2, recR 3, recR 4, recR 5] =
      .ok (rbRing, [0, 1, 2, 0, 1]) ∧
    rbRing.size = 3 ∧ rbRing.buffer = [recR 4, recR 5, recR 3] :=
  ⟨rfl, rfl, rfl⟩

/-- C2: appending N ≤ capacity schema-consistent records into a fresh store
succeeds, each append returning the tail index it wrote to (0, …, N−1), and
leaves a store of size N holding exactly those records (after device
migration) in insertion order. -/
theorem C2_appends_below_capacity (cap : Nat) (dev : String)
    (ts : List Transition) (L : Nat) (h1 : ts.length ≤ cap)
    (h2 : ∀ t ∈ ts, t.len = L) :
    ∃ rbN, (ReplayBuffer.new cap dev).appendAll ts =
        .ok (rbN, List.range ts.length) ∧
      rbN.size = ts.length ∧ rbN.buffer = ts.map (fun t => t.toDev dev) := by
  have h := appendAll_below (ReplayBuffer.new cap dev) ts L
    (by simpa [ReplayBuffer.new] using h1) (by simp [ReplayBuffer.new]) h2
  simp only [ReplayBuffer.new, List.nil_append, List.length_nil] at h
  refine ⟨⟨cap, dev, ts.map (fun t => t.toDev dev), 0,
    ["state", "action", "next_state"]⟩, ?_, ?_, ?_⟩
  · rw [List.range_eq_range']; exact h
  · simp [ReplayBuffer.size]
  · rfl

/-- C2 witness: two records into a capacity-3 store land at positions 0, 1
and are stored in insertion order. -/
theorem C2_witness :
    ([recR 1, recR 2].length ≤ 3 ∧ ∀ t ∈ [recR 1, recR 2], Transition.len t = 5) ∧
    ∃ rbN, (ReplayBuffer.new 3 "cpu").appendAll [recR 1, recR 2] =
        .ok (rbN, List.range [recR 1, recR 2].length) ∧
      rbN.size = [recR 1, recR 2].length ∧
      rbN.buffer = [recR 1, recR 2].map (fun t => t.toDev "cpu") :=
  ⟨⟨by decide, by decide⟩,
    C2_appends_below_capacity 3 "cpu" [recR 1, recR 2] 5 (by decide) (by decide)⟩

/-- C3 (code at the failing input): on an empty store every named sampling
strategy raises — "random" from `random.randint` on an empty range,
"random_unique" and "all" from reading `batch[0]` of an empty batch — so
`sample_batch` raises instead of returning the `None`/empty result promised by
its docstring and by the claim. -/
theorem C3_empty_store_raises :
    (ReplayBuffer.new 3 "cpu").sample_batch 5 true none "random" none none
        (fun _ => 0) = .error "ValueError: empty range for randrange" ∧
    (ReplayBuffer.new 3 "cpu").sample_batch 5 true none "random_unique" none none
        (fun _ => 0) = .error "IndexError: list index out of range" ∧
    (ReplayBuffer.new 3 "cpu").sample_batch 5 true none "all" none none
        (fun _ => 0) = .error "IndexError: list index out of range" :=
  ⟨rfl, rfl, rfl⟩

/-- C4 (counterexample): `clear()` does not reset the write cursor. After
filling a capacity-2 store with R1..R3 the cursor is 1; clearing and then
appending R4..R6 yields contents R4, R6, while a fresh store given the same
appends yields R6, R5 — the post-clear store does not behave like a fresh
one. -/
theorem C4_counterexample :
    (ReplayBuffer.new 2 "cpu").appendAll [recR 1, recR 2, recR 3] =
      .ok (rbTwoFull, [0, 1, 0]) ∧
    rbTwoFull.clear.index = 1 ∧
    (rbTwoFull.clear.appendAll [recR 4, recR 5, recR 6]).map (fun r => r.1.buffer) =
      .ok [recR 4, recR 6] ∧
    ((ReplayBuffer.new 2 "cpu").appendAll [recR 4, recR 5, recR 6]).map
        (fun r => r.1.buffer) = .ok [recR 6, recR 5] ∧
    [recR 4, recR 6] ≠ [recR 6, recR 5] :=
  ⟨rfl, rfl, rfl, rfl, by decide⟩

/-- C4 (amended): after `clear()` the store is empty (`size() = 0`) and any
schema-consistent sequence of at most `capacity` subsequent appends produces
the same contents and returned positions as on a freshly constructed store of
the same capacity and device; the write cursor, however, keeps its old value
rather than being reset, which is what makes behaviour diverge once the
refilled store reaches capacity again (see the counterexample). -/
theorem C4_clear_empties_but_keeps_cursor (rb : ReplayBuffer)
    (ts : List Transition) (L : Nat) (h1 : ts.length ≤ rb.buffer_size)
    (h2 : ∀ t ∈ ts, t.len = L) :
    rb.clear.size = 0 ∧ rb.clear.index = rb.index ∧
    (rb.clear.appendAll ts).map (fun r => (r.1.buffer, r.2)) =
      .ok (ts.map (fun t => t.toDev rb.buffer_device), List.range ts.length) ∧
    ((ReplayBuffer.new rb.buffer_size rb.buffer_device).appendAll ts).map
        (fun r => (r.1.buffer, r.2)) =
      (rb.clear.appendAll ts).map (fun r => (r.1.buffer, r.2)) := by
  have hc := appendAll_below rb.clear ts L
    (by simpa [ReplayBuffer.clear] using h1) (by simp [ReplayBuffer.clear]) h2
  have hf := appendAll_below (ReplayBuffer.new rb.buffer_size rb.buffer_device) ts L
    (by simpa [ReplayBuffer.new] using h1) (by simp [ReplayBuffer.new]) h2
  refine ⟨rfl, rfl, ?_, ?_⟩
  · rw [hc]
    simp [ReplayBuffer.clear, Except.map, List.range_eq_range']
  · rw [hc, hf]
    simp [ReplayBuffer.clear, ReplayBuffer.new, Except.map]

/-- C4 witness: clearing the concrete full capacity-2 store and appending one
record behaves as on a fresh store, while the cursor stays at 1. -/
theorem C4_witness :
    ([recR 7].length ≤ rbTwoFull.buffer_size ∧
      ∀ t ∈ [recR 7], Transition.len t = 5) ∧
    (rbTwoFull.clear.size = 0 ∧ rbTwoFull.clear.index = rbTwoFull.index ∧
      (rbTwoFull.clear.appendAll [recR 7]).map (fun r => (r.1.buffer, r.2)) =
        .ok ([recR 7].map (fun t => t.toDev rbTwoFull.buffer_device),
          List.range [recR 7].length) ∧
      ((ReplayBuffer.new rbTwoFull.buffer_size rbTwoFull.buffer_device).appendAll
          [recR 7]).map (fun r => (r.1.buffer, r.2)) =
        (rbTwoFull.clear.appendAll [recR 7]).map (fun r => (r.1.buffer, r.2))) :=
  ⟨⟨by decide, by decide⟩,
    C4_clear_empties_but_keeps_cursor rbTwoFull [recR 7] 5 (by decide) (by decide)⟩

/-- C5 (counterexample): with one stored record whose extra field is "bar",
appending a record with extra field "foo" — a different field-name set of the
same size — succeeds, returning index 1 and growing the store to size 2,
because the source compares only field counts, never field names. -/
theorem C5_counterexample :
    recBar.has_keys recFoo.keys = false ∧ recFoo.len = recBar.len ∧
    (rbOneBar.append recFoo defaultRequiredKeys).1 = .ok 1 ∧
    (rbOneBar.append recFoo defaultRequiredKeys).2.1.size = 2 := by
  refine ⟨by decide, by decide, ?_, ?_⟩ <;> rfl

/-- C5 (amended): appending a record whose field count differs from that of
the first stored record fails with the length-mismatch error and leaves the
store — contents, size and cursor — unchanged; only the count is compared (the
counterexample shows an equal-count record with different field names being
accepted). -/
theorem C5_schema_mismatch_rejected (rb : ReplayBuffer) (t : Transition)
    (req : List String) (hne : rb.buffer ≠ []) (hk : t.has_keys req = true)
    (hlen : rb.buffer.headI.len ≠ t.len) :
    (rb.append t req).1 =
      .error "Transition object length is not equal to objects stored by buffer!" ∧
    (rb.append t req).2.1 = rb ∧ (rb.append t req).2.1.size = rb.size := by
  rw [append_len_mismatch rb t req hne hk hlen]
  exact ⟨rfl, rfl, rfl⟩

/-- C5 witness: appending a five-field record to the store whose schema has
six fields raises and leaves the store unchanged. -/
theorem C5_witness :
    (rbOneBar.buffer ≠ [] ∧ (recR 9).has_keys defaultRequiredKeys = true ∧
      rbOneBar.buffer.headI.len ≠ (recR 9).len) ∧
    ((rbOneBar.append (recR 9) defaultRequiredKeys).1 =
      .error "Transition object length is not equal to objects stored by buffer!" ∧
    (rbOneBar.append (recR 9) defaultRequiredKeys).2.1 = rbOneBar ∧
    (rbOneBar.append (recR 9) defaultRequiredKeys).2.1.size = rbOneBar.size) :=
  ⟨⟨by decide, by decide, by decide⟩,
    C5_schema_mismatch_rejected rbOneBar (recR 9) defaultRequiredKeys
      (by decide) (by decide) (by decide)⟩

/-- C10: when `append` fails the field-count check on a non-empty store, the
call returns the error and the store is unchanged, but the argument record has
already been migrated to the store's device by the preceding `transition.to`
call — `append` mutates its input record even though it fails. -/
theorem C10_failed_append_migrates_input (rb : ReplayBuffer) (t : Transition)
    (req : List String) (hne : rb.buffer ≠ []) (hk : t.has_keys req = true)
    (hlen : rb.buffer.headI.len ≠ t.len) :
    (rb.append t req).1.isOk = false ∧ (rb.append t req).2.1 = rb ∧
    (rb.append t req).2.2 = t.toDev rb.buffer_device := by
  rw [append_len_mismatch rb t req hne hk hlen]
  exact ⟨rfl, rfl, rfl⟩

/-- C10 witness: a cuda-resident six-field record appended to a cpu store with
a five-field schema: the append fails, the store is unchanged, and the
caller's record now lives on the cpu device — visibly mutated. -/
theorem C10_witness :
    (rbOneRec.buffer ≠ [] ∧ recCuda.has_keys defaultRequiredKeys = true ∧
      rbOneRec.buffer.headI.len ≠ recCuda.len) ∧
    ((rbOneRec.append recCuda defaultRequiredKeys).1.isOk = false ∧
      (rbOneRec.append recCuda defaultRequiredKeys).2.1 = rbOneRec ∧
      (rbOneRec.append recCuda defaultRequiredKeys).2.2 =
        recCuda.toDev rbOneRec.buffer_device) ∧
    recCuda.toDev rbOneRec.buffer_device ≠ recCuda :=
  ⟨⟨by decide, by decide, by decide⟩,
    C10_failed_append_migrates_input rbOneRec recCuda defaultRequiredKeys
      (by decide) (by decide) (by decide),
    by decide⟩

/-- C6 (counterexample): a record whose state, action and next_state arrays
all share leading batch dimension 2 and whose reward is a 1-dimensional array
with matching leading dimension 2 — accepted under the claim's "any such
reward is accepted" — is rejected at construction, because the code only
accepts float scalars or exactly 2-dimensional reward tensors. -/
theorem C6_counterexample :
    (∀ s ∈ recOneD.mainShapes, s.head? = some 2) ∧
    recOneD.reward = .tensor ⟨[2], "cpu", [0, 0]⟩ ∧
    ([2] : List Nat).head? = some 2 ∧
    Transition.make recOneD.state recOneD.action recOneD.next_state
        recOneD.reward recOneD.terminal recOneD.kwargs =
      .error "Reward type must be a float value or a tensor of shape [batch_size, *]" :=
  ⟨by decide, rfl, rfl, rfl⟩

/-- C6 (amended): construction-time validation succeeds exactly when either
the reward is a plain scalar and every array under state, action and
next_state has leading dimension 1, or the reward is an exactly 2-dimensional
tensor whose leading dimension every such array shares; reward arrays of any
other rank are rejected even when their leading dimension matches, and a
scalar reward forces the batch dimension to be 1. -/
theorem C6_validation_characterization (t : Transition) :
    t.check_input = .ok () ↔
      ((∃ r, t.reward = .scalar r) ∧ ∀ s ∈ t.mainShapes, s.head? = some 1) ∨
      (∃ tr, t.reward = .tensor tr ∧ tr.shape.length = 2 ∧
        ∀ s ∈ t.mainShapes, s.head? = some tr.shape.headI) := by
  unfold Transition.check_input
  cases hrw : t.reward with
  | scalar r =>
      simp only [bind, Except.bind, pure, Except.pure]
      have hiff := checkHeads_ok_true_iff t.mainShapes 1
      cases hch : checkHeads t.mainShapes 1 with
      | error e =>
          have hnall : ¬ ∀ s ∈ t.mainShapes, s.head? = some 1 := fun hall => by
            rw [hch] at hiff
            simpa using hiff.mpr hall
          simp [hch, hnall]
      | ok b =>
          rw [hch] at hiff
          cases b with
          | true =>
              have hall := hiff.mp rfl
              simp [hch, hall]
              exact hall
          | false =>
              have hnall : ¬ ∀ s ∈ t.mainShapes, s.head? = some 1 := fun hall => by
                simpa using hiff.mpr hall
              simp [hch, hnall]
  | tensor tr =>
      by_cases hl : tr.shape.length = 2
      · simp only [hl, bind, Except.bind, pure, Except.pure, beq_self_eq_true,
          if_true, decide_True]
        have hiff := checkHeads_ok_true_iff t.mainShapes tr.shape.headI
        cases hch : checkHeads t.mainShapes tr.shape.headI with
        | error e =>
            have hnall : ¬ ∀ s ∈ t.mainShapes, s.head? = some tr.shape.headI :=
              fun hall => by
                rw [hch] at hiff
                simpa using hiff.mpr hall
            simp [hch, hnall, hl]
        | ok b =>
            rw [hch] at hiff
            cases b with
            | true =>
                have hall := hiff.mp rfl
                simp [hch, hall, hl]
                exact hall
            | false =>
                have hnall : ¬ ∀ s ∈ t.mainShapes, s.head? = some tr.shape.headI :=
                  fun hall => by simpa using hiff.mpr hall
                simp [hch, hnall]
      · have hb : (tr.shape.length == 2) = false := by simpa using hl
        simp [hb, bind, Except.bind, hl]

/-- C6 witness: the characterization evaluated at a concrete record — a unit
record with scalar reward validates. -/
theorem C6_witness : (recR 1).check_input = .ok () :=
  (C6_validation_characterization (recR 1)).mpr (Or.inl ⟨⟨1, rfl⟩, by decide⟩)

/-- C7 (counterexample): a store holding one legal pre-batched record (unit
batch dimension 2): sampling it with "all" and concatenating yields
`actual_count = 1` while every structured main field's concatenated sub-array
has leading dimension 2 — the sum of the records' unit batch sizes, not
`actual_count`. -/
theorem C7_counterexample :
    rbPre.sample_batch 1 true none "all" none none (fun _ => 0) =
      .ok (1, [CatVal.tdict [("s", ⟨[2, 3], "cpu", [0, 0, 0, 0, 0, 0]⟩)],
        CatVal.tdict [("a", ⟨[2, 1], "cpu", [0, 0]⟩)],
        CatVal.tdict [("s", ⟨[2, 3], "cpu", [0, 0, 0, 0, 0, 0]⟩)],
        CatVal.tens ⟨[1, 2], "cpu", [0, 0]⟩,
        CatVal.tens ⟨[1, 1], "cpu", [0]⟩]) ∧
    ([2, 3] : List Nat).headI ≠ 1 :=
  ⟨rfl, by decide⟩

/-- C7 (amended): for a non-empty batch in which every record has unit batch
dimension 1, uniform field names and shapes across the batch, and a scalar
reward, concatenation over the default keys produces, per structured main
field, a dictionary of concatenated sub-arrays whose leading dimension equals
`actual_count` (the batch length); the reward scalars are promoted and
concatenated to a `[actual_count, 1]` array, and terminal to a
`[actual_count, 1]` numeric 0/1 array. For pre-batched records the main
fields' leading dimension is instead the sum of unit batch sizes (see the
counterexample). -/
theorem C7_unit_batch_concatenation (rb : ReplayBuffer)
    (hmain : rb.main_attrs = ["state", "action", "next_state"])
    (hd : Transition) (rest : List Transition) (dev : String)
    (hsmS : ∀ tr ∈ hd :: rest, shapeMap tr.state = shapeMap hd.state)
    (hsmA : ∀ tr ∈ hd :: rest, shapeMap tr.action = shapeMap hd.action)
    (hsmN : ∀ tr ∈ hd :: rest, shapeMap tr.next_state = shapeMap hd.next_state)
    (huS : ∀ p ∈ hd.state, p.2.shape.head? = some 1)
    (huA : ∀ p ∈ hd.action, p.2.shape.head? = some 1)
    (huN : ∀ p ∈ hd.next_state, p.2.shape.head? = some 1)
    (hrew : ∀ tr ∈ hd :: rest, ∃ r, tr.reward = .scalar r) :
    ∃ sd ad nd rt tt,
      rb.concatenate_batch (hd :: rest) (hd :: rest).length true dev
          ["state", "action", "next_state", "reward", "terminal"] [] =
        .ok [CatVal.tdict sd, CatVal.tdict ad, CatVal.tdict nd,
          CatVal.tens rt, CatVal.tens tt] ∧
      (∀ p ∈ sd, ∃ tail, p.2.shape = (hd :: rest).length :: tail) ∧
      (∀ p ∈ ad, ∃ tail, p.2.shape = (hd :: rest).length :: tail) ∧
      (∀ p ∈ nd, ∃ tail, p.2.shape = (hd :: rest).length :: tail) ∧
      rt.shape = [(hd :: rest).length, 1] ∧
      tt.shape = [(hd :: rest).length, 1] := by
  obtain ⟨sd, hs, hsf, hss⟩ := concatOne_main "state" Transition.state
    (fun tr => rfl) (by decide) hd rest (hd :: rest).length dev [] [] [] hsmS huS
  obtain ⟨ad, ha, haf, has⟩ := concatOne_main "action" Transition.action
    (fun tr => rfl) (by decide) hd rest (hd :: rest).length dev []
    ([] ++ [CatVal.tdict sd]) ([] ++ ["state"]) hsmA huA
  obtain ⟨nd, hn, hnf, hns⟩ := concatOne_main "next_state" Transition.next_state
    (fun tr => rfl) (by decide) hd rest (hd :: rest).length dev []
    (([] ++ [CatVal.tdict sd]) ++ [CatVal.tdict ad])
    (([] ++ ["state"]) ++ ["action"]) hsmN huN
  obtain ⟨rt, hr, hrs⟩ := concatOne_reward_scalar hd rest dev []
    ((([] ++ [CatVal.tdict sd]) ++ [CatVal.tdict ad]) ++ [CatVal.tdict nd])
    ((([] ++ ["state"]) ++ ["action"]) ++ ["next_state"]) hrew
  have ht := concatOne_terminal hd rest dev []
    (((([] ++ [CatVal.tdict sd]) ++ [CatVal.tdict ad]) ++ [CatVal.tdict nd])
      ++ [CatVal.tens rt])
    (((([] ++ ["state"]) ++ ["action"]) ++ ["next_state"]) ++ ["reward"])
  refine ⟨sd, ad, nd, rt,
    ⟨[(hd :: rest).length, 1], dev,
      (hd :: rest).map (fun item => if item.terminal then 1 else 0)⟩,
    ?_, hss, has, hns, hrs, rfl⟩
  unfold ReplayBuffer.concatenate_batch
  rw [hmain]
  rw [List.foldlM_cons, hs]
  simp only [bind, Except.bind]
  rw [List.foldlM_cons, ha]
  simp only [bind, Except.bind]
  rw [List.foldlM_cons, hn]
  simp only [bind, Except.bind]
  rw [List.foldlM_cons, hr]
  simp only [bind, Except.bind]
  rw [List.foldlM_cons, ht]
  simp only [bind, Except.bind]
  rw [List.foldlM_nil]
  simp [pure, Except.pure]

/-- C7 witness: a concrete two-record unit batch concatenated over the
default keys. -/
theorem C7_witness :
    (rbOneRec.main_attrs = ["state", "action", "next_state"] ∧
      (∀ tr ∈ recR 1 :: [recR 2], shapeMap tr.state = shapeMap (recR 1).state) ∧
      (∀ tr ∈ recR 1 :: [recR 2], shapeMap tr.action = shapeMap (recR 1).action) ∧
      (∀ tr ∈ recR 1 :: [recR 2],
        shapeMap tr.next_state = shapeMap (recR 1).next_state) ∧
      (∀ p ∈ (recR 1).state, p.2.shape.head? = some 1) ∧
      (∀ p ∈ (recR 1).action, p.2.shape.head? = some 1) ∧
      (∀ p ∈ (recR 1).next_state, p.2.shape.head? = some 1) ∧
      (∀ tr ∈ recR 1 :: [recR 2], ∃ r, tr.reward = RewardVal.scalar r)) ∧
    ∃ sd ad nd rt tt,
      rbOneRec.concatenate_batch (recR 1 :: [recR 2]) (recR 1 :: [recR 2]).length
          true "cpu" ["state", "action", "next_state", "reward", "terminal"] [] =
        .ok [CatVal.tdict sd, CatVal.tdict ad, CatVal.tdict nd, CatVal.tens rt,
          CatVal.tens tt] ∧
      (∀ p ∈ sd, ∃ tail, p.2.shape = (recR 1 :: [recR 2]).length :: tail) ∧
      (∀ p ∈ ad, ∃ tail, p.2.shape = (recR 1 :: [recR 2]).length :: tail) ∧
      (∀ p ∈ nd, ∃ tail, p.2.shape = (recR 1 :: [recR 2]).length :: tail) ∧
      rt.shape = [(recR 1 :: [recR 2]).length, 1] ∧
      tt.shape = [(recR 1 :: [recR 2]).length, 1] :=
  ⟨⟨rfl, by decide, by decide, by decide, by decide, by decide, by decide,
    by
      intro tr htr
      rcases List.mem_cons.mp htr with h | h
      · exact ⟨1, by rw [h]; rfl⟩
      · rw [List.mem_singleton.mp h]
        exact ⟨2, rfl⟩⟩,
    C7_unit_batch_concatenation rbOneRec rfl (recR 1) [recR 2] "cpu"
      (by decide) (by decide) (by decide) (by decide) (by decide) (by decide)
      (by
        intro tr htr
        rcases List.mem_cons.mp htr with h | h
        · exact ⟨1, by rw [h]; rfl⟩
        · rw [List.mem_singleton.mp h]
          exact ⟨2, rfl⟩)⟩

/-- C8 (counterexample): from the initial open-gate state, an update whose
body raises propagates the error with the gate still closed — the on()/off()
pairing is broken on the error path, as the source wraps no try/finally around
the update body. -/
theorem C8_counterexample :
    (A3C.update [] (some "boom") A3CState.init).1.disable_sync.get = true ∧
    (A3C.update [] (some "boom") A3CState.init).2 = some "boom" :=
  ⟨rfl, rfl⟩

/-- C8 (amended): the gate toggles are paired only on the normal path — for
every body and start state, an update that completes returns with the gate
open, while an update whose body raises returns with the gate still closed,
the trailing off() having been skipped. -/
theorem C8_gate_pairing (body : List InnerCall) (e : String) (s : A3CState) :
    (A3C.update body none s).1.disable_sync.get = false ∧
    (A3C.update body (some e) s).1.disable_sync.get = true := by
  constructor
  · simp [A3C.update, Switch.off, Switch.get]
  · simp [A3C.update, runCalls_disable_sync, Switch.on, Switch.get]

/-- C8 witness: the pairing behaviour evaluated at a concrete body and start
state. -/
theorem C8_witness :
    (A3C.update [] none A3CState.init).1.disable_sync.get = false ∧
    (A3C.update [] (some "boom") A3CState.init).1.disable_sync.get = true :=
  C8_gate_pairing [] "boom" A3CState.init

/-- C9: calling update with the gate open and a body that completes: the gate
is closed throughout the body (every act / eval_act / criticize inside is
suppressed, leaving the pull counters unchanged), the gate is reopened
afterwards, no error escapes, and exactly one push per model — actor and
critic — is issued after completion. -/
theorem C9_update_gate_and_push (body : List InnerCall) (s : A3CState)
    (_hopen : s.disable_sync.get = false) :
    (runCalls body { s with disable_sync := s.disable_sync.on }).disable_sync.get
        = true ∧
    (A3C.update body none s).2 = none ∧
    (A3C.update body none s).1.disable_sync.get = false ∧
    (A3C.update body none s).1.actor_pulls = s.actor_pulls ∧
    (A3C.update body none s).1.critic_pulls = s.critic_pulls ∧
    (A3C.update body none s).1.actor_pushes = s.actor_pushes + 1 ∧
    (A3C.update body none s).1.critic_pushes = s.critic_pushes + 1 := by
  have hg : ({ s with disable_sync := s.disable_sync.on } : A3CState).disable_sync.get
      = true := rfl
  have hid := runCalls_gated body { s with disable_sync := s.disable_sync.on } hg
  refine ⟨?_, ?_, ?_, ?_, ?_, ?_, ?_⟩
  · rw [runCalls_disable_sync]; rfl
  all_goals simp [A3C.update, hid, Switch.off, Switch.get]

/-- C9 witness: a body of one gated act and one gated criticize, from the
initial open-gate state. -/
theorem C9_witness :
    A3CState.init.disable_sync.get = false ∧
    ((runCalls [InnerCall.act true, InnerCall.criticize true]
        { A3CState.init with
          disable_sync := A3CState.init.disable_sync.on }).disable_sync.get = true ∧
    (A3C.update [InnerCall.act true, InnerCall.criticize true] none
        A3CState.init).2 = none ∧
    (A3C.update [InnerCall.act true, InnerCall.criticize true] none
        A3CState.init).1.disable_sync.get = false ∧
    (A3C.update [InnerCall.act true, InnerCall.criticize true] none
        A3CState.init).1.actor_pulls = A3CState.init.actor_pulls ∧
    (A3C.update [InnerCall.act true, InnerCall.criticize true] none
        A3CState.init).1.critic_pulls = A3CState.init.critic_pulls ∧
    (A3C.update [InnerCall.act true, InnerCall.criticize true] none
        A3CState.init).1.actor_pushes = A3CState.init.actor_pushes + 1 ∧
    (A3C.update [InnerCall.act true, InnerCall.criticize true] none
        A3CState.init).1.critic_pushes = A3CState.init.critic_pushes + 1) :=
  ⟨rfl, C9_update_gate_and_push [InnerCall.act true, InnerCall.criticize true]
    A3CState.init rfl⟩

end Machin
